import Mathlib

/-!
# Verification of the tablestore-odm marshalling and query-construction core

Shallow embedding of the schema-driven value converter
(`src/type-converter.ts`), the schema key/update conversions
(`src/schema.ts`), the filter and search-query factories
(`src/qurey-builder/filter-factory.ts`, `src/qurey-builder/query-factory.ts`)
and the two request builders (the range `getRange` builder and the
search-index builder), together with theorems settling the specification's
claims about them.

JavaScript numbers are modelled as rationals (`Rat`); every concrete value
appearing in the theorems below is exactly representable as an IEEE-754
double and all operations the code performs on them (identity, decimal
formatting, decimal parsing at the magnitudes used) are exact there, so the
rational model agrees with the JavaScript semantics on everything stated.
-/

namespace TsOdm

/-! ## Value model -/

/-- The zod base types (after `getBaseZodTypeInfo` has stripped
optional/nullable/default/effects wrappers) that the claims quantify over.
`znumber` carries the explicit `.int()` marker detected by
`isZodNumberIntInternal`; `zenum` carries its allowed string values.
The remaining converter branches (bigint, date, structured JSON types),
which no claim touches, are collapsed into `zother`, whose converter
behaviour below is the source's `default` branch (value passed through
unchanged). -/
inductive ZodTy where
  | zstring
  | znumber (isInt : Bool)
  | zboolean
  | zenum (values : List String)
  | zother
deriving DecidableEq, Repr

/-- The JavaScript / Tablestore values flowing through the converter:
strings, numbers (as rationals) and `NaN`, booleans, `Tablestore.Long`
64-bit integer cells, the `INF_MIN`/`INF_MAX` range sentinels, and
`null`/`undefined`. -/
inductive TVal where
  | vstr (s : String)
  | vnum (q : Rat)
  | vnan
  | vbool (b : Bool)
  | vlong (n : Int)
  | infMin
  | infMax
  | vnull
  | vundefined
deriving DecidableEq, Repr

/-- JavaScript `Boolean(x)` truthiness on the modelled values (objects such
as `Tablestore.Long` instances and the sentinel markers are always truthy). -/
def jsTruthy : TVal → Bool
  | .vstr s => s != ""
  | .vnum q => q != 0
  | .vnan => false
  | .vbool b => b
  | .vlong _ => true
  | .infMin => true
  | .infMax => true
  | .vnull => false
  | .vundefined => false

def isDigitChar (c : Char) : Bool := '0' ≤ c && c ≤ '9'

def digitsToNat (l : List Char) : Nat :=
  l.foldl (fun a c => 10 * a + (c.toNat - 48)) 0

/-- JavaScript `Number(string)` on the decimal sublanguage
`[sign] digits [. digits]` that arises in this code's data flow: the empty
string parses to `0` (a JavaScript quirk), anything not of that shape —
in particular strings containing grouping commas or letters — is `NaN`,
modelled as `none`.  (Hex / exponent forms never occur here.) -/
def jsParseNumber (s : String) : Option Rat :=
  let cs := s.data
  if cs.isEmpty then some 0
  else
    let (sign, rest) :=
      match cs with
      | '-' :: r => (true, r)
      | '+' :: r => (false, r)
      | r => (false, r)
    let intPart := rest.takeWhile isDigitChar
    let rest2 := rest.dropWhile isDigitChar
    let signed (m : Rat) : Rat := if sign then -m else m
    match rest2 with
    | [] =>
        if intPart.isEmpty then none
        else some (signed (digitsToNat intPart : Rat))
    | '.' :: fracRest =>
        let fracPart := fracRest.takeWhile isDigitChar
        if !(fracRest.dropWhile isDigitChar).isEmpty then none
        else if intPart.isEmpty && fracPart.isEmpty then none
        else
          some (signed ((digitsToNat intPart : Rat) +
            (digitsToNat fracPart : Rat) / ((10 : Rat) ^ fracPart.length)))
    | _ => none

/-- Truncation of a rational toward zero. -/
def ratTrunc (q : Rat) : Int := if q < 0 then -⌊-q⌋ else ⌊q⌋

/-- Wrap to 64-bit two's complement. -/
def wrap64 (n : Int) : Int := (n + 2 ^ 63) % 2 ^ 64 - 2 ^ 63

/-- `Tablestore.Long.fromNumber`: truncates toward zero and wraps to a
64-bit signed integer; `NaN` yields `0`. -/
def longFromNumber (q : Option Rat) : Int :=
  match q with
  | some q => wrap64 (ratTrunc q)
  | none => 0

/-- Decimal digit string of a natural number, most significant first. -/
def natDecimal (n : Nat) : List Char := Nat.toDigits 10 n

/-- Decimal string of an integer. -/
def intDecimal (n : Int) : String :=
  if n < 0 then "-" ++ String.mk (natDecimal n.natAbs)
  else String.mk (natDecimal n.natAbs)

/-- Insert an `en`-locale grouping comma after every three digits, taking
the digits least-significant first. -/
def group3Rev : List Char → List Char
  | a :: b :: c :: d :: rest => a :: b :: c :: ',' :: group3Rev (d :: rest)
  | l => l

def stripTrailingZeros (l : List Char) : List Char :=
  (l.reverse.dropWhile (fun c => c == '0')).reverse

/-- `Number.prototype.toLocaleString()` under the ECMA-402 defaults Node
applies (`en`-style grouping, `minimumFractionDigits 0`,
`maximumFractionDigits 3`, rounding half away from zero): round the value
to at most three fraction digits, drop trailing fraction zeros, and group
the integer part with commas.  (Values of magnitude ≥ 10^21, which format
exponentially, do not occur in the claims.) -/
def jsNumToLocaleString (q : Rat) : String :=
  let a : Rat := if q < 0 then -q else q
  let scaled : Nat := (⌊a * 1000 + 1 / 2⌋).toNat
  let ip : Nat := scaled / 1000
  let fp : Nat := scaled % 1000
  let ipStr : List Char := (group3Rev (natDecimal ip).reverse).reverse
  let fpStr : List Char :=
    if fp = 0 then []
    else
      let ds := natDecimal fp
      '.' :: stripTrailingZeros (List.replicate (3 - ds.length) '0' ++ ds)
  let core := String.mk (ipStr ++ fpStr)
  if q < 0 then "-" ++ core else core

/-- `value.toLocaleString()` as the decoder applies it to a stored cell:
a string returns itself, a boolean its name, a `Tablestore.Long` (which has
no own `toLocaleString`) falls back through `Object.prototype.toLocaleString`
to its decimal `toString`, a number formats per ECMA-402 defaults, and `NaN`
prints `"NaN"`.  `null`/`undefined` and the sentinels are guarded away
before this call in `tablestoreToJs`; their rows are unreachable there. -/
def toLocaleString : TVal → String
  | .vstr s => s
  | .vnum q => jsNumToLocaleString q
  | .vnan => "NaN"
  | .vbool b => if b then "true" else "false"
  | .vlong n => intDecimal n
  | .infMin => "INF_MIN"
  | .infMax => "INF_MAX"
  | .vnull => "null"
  | .vundefined => "undefined"

/-- JavaScript `Number(x)` coercion on the modelled values (`none` is
`NaN`).  A `Tablestore.Long` object coerces through its `toString`, which
re-parses to its numeric value (exact at the magnitudes used here);
the sentinel objects stringify to non-numeric labels, hence `NaN`. -/
def jsToNumber : TVal → Option Rat
  | .vstr s => jsParseNumber s
  | .vnum q => some q
  | .vnan => none
  | .vbool b => some (if b then 1 else 0)
  | .vlong n => some (n : Rat)
  | .infMin => none
  | .infMax => none
  | .vnull => some 0
  | .vundefined => none

/-! ## Value Converter (src/type-converter.ts) -/

/-- `jsToTablestore` (src/type-converter.ts): with no schema the value is
returned unchanged; `null`/`undefined` input yields `undefined`; otherwise
dispatch on the unwrapped base type.  Strings and enum values are returned
as-is (a TypeScript cast, identity at runtime); an `.int()`-marked number
becomes `Tablestore.Long.fromNumber(value)`; a plain number becomes
`Number(value)`; a boolean becomes `Boolean(value)`; the remaining branch
is the source's `default` pass-through. -/
def jsToTablestore (value : TVal) (zodType : Option ZodTy) : TVal :=
  match zodType with
  | none => value
  | some t =>
    if value = .vnull ∨ value = .vundefined then .vundefined
    else
      match t with
      | .zenum _ => value
      | .zstring => value
      | .znumber isInt =>
        if isInt then .vlong (longFromNumber (jsToNumber value))
        else
          match jsToNumber value with
          | some q => .vnum q
          | none => .vnan
      | .zboolean => .vbool (jsTruthy value)
      | .zother => value

/-- `tablestoreToJs` (src/type-converter.ts): `null`/`undefined` cells (or a
missing schema) are returned unchanged; the `INF_MIN`/`INF_MAX` sentinels
return their string label; otherwise the decoder takes
`localValue = value.toLocaleString()` and dispatches on the base type:
strings via `String(localValue)`, numbers via
`z.number().safeParse(Number(localValue)).data` (zod rejects `NaN`, giving
`undefined`), booleans via `z.boolean().safeParse(Boolean(localValue)).data`
(always succeeds).  Enum schemas have no case in the source's switch and
fall to the `default` branch returning the raw value, as does `zother`. -/
def tablestoreToJs (value : TVal) (zodType : Option ZodTy) : TVal :=
  if value = .vnull ∨ value = .vundefined ∨ zodType = none then value
  else if value = .infMin ∨ value = .infMax then .vstr (toLocaleString value)
  else
    match zodType with
    | none => value
    | some t =>
      let localValue := toLocaleString value
      match t with
      | .zstring => .vstr localValue
      | .znumber _ =>
        match jsParseNumber localValue with
        | some q => .vnum q
        | none => .vundefined
      | .zboolean => .vbool (localValue != "")
      | .zenum _ => value
      | .zother => value

/-- Whether `schema.safeParse(v)` succeeds, for the modelled base types on
the modelled values: `z.string()` wants a string, `z.number()` a non-`NaN`
number with `.int()` additionally requiring an integral value,
`z.boolean()` a boolean, an enum one of its listed strings.  The `zother`
tag abstracts types whose validation no claim exercises; it is
conservatively rejected and never instantiated in the theorems below. -/
def zodAccepts : ZodTy → TVal → Bool
  | .zstring, .vstr _ => true
  | .znumber isInt, .vnum q => if isInt then q.den == 1 else true
  | .zboolean, .vbool _ => true
  | .zenum values, .vstr s => values.contains s
  | _, _ => false

/-! ## Search Query Factory (src/qurey-builder/query-factory.ts) -/

/-- The declarative payload of a `RANGE_QUERY` fragment as
`QueryFactory.range` emits it. -/
structure RangeQueryPayload where
  fieldName : String
  rangeFrom : TVal
  rangeTo : TVal
  includeLower : Bool
  includeUpper : Bool
deriving DecidableEq, Repr

/-- The optional bound-inclusiveness flags accepted by `QueryFactory.range`
(`none` models an absent property). -/
structure RangeBoundOptions where
  includeLower : Option Bool
  includeUpper : Option Bool
deriving DecidableEq, Repr

/-- `QueryFactory.range` (query-factory.ts): builds the range fragment.
The source populates BOTH inclusiveness fields from
`options.includeUpper ?? true`; the declared `includeLower` option is never
read. -/
def QueryFactory.range (field : String) (lo hi : TVal)
    (options : RangeBoundOptions) : RangeQueryPayload :=
  { fieldName := field
    rangeFrom := lo
    rangeTo := hi
    includeLower := options.includeUpper.getD true
    includeUpper := options.includeUpper.getD true }

/-! ## Filter Condition Factory (src/qurey-builder/filter-factory.ts) -/

inductive ComparatorType where
  | equal
  | notEqual
  | greaterThan
  | greaterEqual
  | lessThan
  | lessEqual
deriving DecidableEq, Repr

inductive LogicalOperator where
  | logAnd
  | logOr
  | logNot
deriving DecidableEq, Repr

/-- `Tablestore.ColumnCondition`: either a `SingleColumnCondition` leaf or a
`CompositeCondition` with a logical operator and its added sub-conditions,
in insertion order. -/
inductive ColumnCondition where
  | single (columnName : String) (columnValue : TVal)
      (comparator : ComparatorType) (passIfMissing : Bool)
      (latestVersionOnly : Bool)
  | composite (op : LogicalOperator) (subConditions : List ColumnCondition)
deriving Repr

/-- `FilterFactory.and` (filter-factory.ts): throws on zero conditions,
otherwise builds an `AND` composite and adds every condition to it in
order.  The thrown construction error is modelled as `Except.error`. -/
def FilterFactory.and (conditions : List ColumnCondition) :
    Except String ColumnCondition :=
  if conditions.length = 0 then .error "AND 操作符需要至少一个条件。"
  else .ok (.composite .logAnd conditions)

/-- `FilterFactory.or` (filter-factory.ts): same shape as `and` with the
`OR` operator. -/
def FilterFactory.or (conditions : List ColumnCondition) :
    Except String ColumnCondition :=
  if conditions.length = 0 then .error "OR 操作符需要至少一个条件。"
  else .ok (.composite .logOr conditions)

/-- `FilterFactory.not` (filter-factory.ts): takes exactly one condition —
its signature admits no second argument, which is how a two-condition call
is rejected — and builds a `NOT` composite holding that single child. -/
def FilterFactory.not (condition : ColumnCondition) : ColumnCondition :=
  .composite .logNot [condition]

/-! ## Schema Descriptor (src/schema.ts) -/

/-- A GSI definition: index name and its ordered key column names. -/
structure GsiDefinition where
  indexName : String
  primaryKeys : List String
deriving DecidableEq, Repr

/-- The slice of `DbSchema` that the key/update conversions read: the zod
shape (declared field names, in declaration order, with their base types),
the ordered primary-key names, the GSI definitions and the `timestamps`
option. -/
structure DbSchema where
  fields : List (String × ZodTy)
  primaryKeys : List String
  GSIs : List GsiDefinition
  timestamps : Bool
deriving Repr

/-- `Object.keys(schema.shape)`: all declared field names in order
(the source's `difinitionKeys` [sic]). -/
def DbSchema.difinitionKeys (s : DbSchema) : List String :=
  s.fields.map Prod.fst

/-- `definitionKeys.filter(key => !primaryKeys.includes(key))`. -/
def DbSchema.attributeKeys (s : DbSchema) : List String :=
  s.difinitionKeys.filter (fun k => !(s.primaryKeys.contains k))

/-- `DbSchema.getFieldSchema`: `shape[fieldName]`, absent for undeclared
names. -/
def DbSchema.getFieldSchema (s : DbSchema) (fieldName : String) : Option ZodTy :=
  s.fields.lookup fieldName

/-- `DbSchema.getGsiPks`: the named GSI's key list, or `[]` when no GSI of
that name is defined. -/
def DbSchema.getGsiPks (s : DbSchema) (gsiIndexName : String) : List String :=
  match s.GSIs.find? (fun g => g.indexName == gsiIndexName) with
  | none => []
  | some g => g.primaryKeys

/-- JavaScript `[...new Set(l)]`: removes duplicates keeping the first
occurrence of each element, preserving insertion order (`seen` is the set
built so far). -/
def jsSetDedupAux : List String → List String → List String
  | [], _ => []
  | x :: xs, seen =>
    if seen.contains x then jsSetDedupAux xs seen
    else x :: jsSetDedupAux xs (x :: seen)

def jsSetDedup (l : List String) : List String := jsSetDedupAux l []

/-- The `seen` set `jsSetDedupAux` has accumulated after a prefix
(proof helper). -/
def seenAfter : List String → List String → List String
  | [], seen => seen
  | x :: xs, seen =>
    if seen.contains x then seenAfter xs seen else seenAfter xs (x :: seen)

/-- The key order `convertToTablestorePks` iterates: the base primary keys,
or — when a GSI name is given — `[...new Set([...gsiPks, ...primaryKeys])]`. -/
def DbSchema.applicableKeys (s : DbSchema) (gsiIndexName : Option String) :
    List String :=
  match gsiIndexName with
  | none => s.primaryKeys
  | some nm => jsSetDedup (s.getGsiPks nm ++ s.primaryKeys)

/-- `input[key]`: property access on the (partial) input record; absent
keys read as `undefined`. -/
def recGet (input : List (String × TVal)) (k : String) : TVal :=
  (input.lookup k).getD .vundefined

/-- The loop body of `DbSchema.convertToTablestorePks` over a given key
order: convert each field with `jsToTablestore`; a conversion returning
`null`/`undefined` records the key as missing, otherwise the converted
pair is appended to the output. -/
def convertPksLoop (s : DbSchema) (input : List (String × TVal)) :
    List String → List (String × TVal) × List String
  | [] => ([], [])
  | key :: rest =>
    let parsed := jsToTablestore (recGet input key) (s.getFieldSchema key)
    let out := convertPksLoop s input rest
    if parsed = .vnull ∨ parsed = .vundefined then (out.1, key :: out.2)
    else ((key, parsed) :: out.1, out.2)

/-- `DbSchema.convertToTablestorePks` (schema.ts): iterates
`applicableKeys` and returns the converted key pairs plus the missing key
names (the source additionally wraps a non-empty missing list in an
`Error`). -/
def DbSchema.convertToTablestorePks (s : DbSchema) (gsiIndexName : Option String)
    (input : List (String × TVal)) : List (String × TVal) × List String :=
  convertPksLoop s input (s.applicableKeys gsiIndexName)

/-- One instruction of `updateOfAttributeColumns`: a `PUT` of a converted
value or a `DELETE_ALL` of a column. -/
inductive UpdateInstr where
  | put (column : String) (value : TVal)
  | deleteAll (column : String)
deriving DecidableEq, Repr

/-- The column an instruction applies to. -/
def UpdateInstr.column : UpdateInstr → String
  | .put c _ => c
  | .deleteAll c => c

/-- The loop body of `DbSchema.convertToTablestoreUpdates` over a given key
order.  Per key: a field named `updatedAt` under the `timestamps` option
always emits `PUT` of `jsToTablestore(Date.now(), zod.number().int())`
(`now` stands for `Date.now()`); a key the input does not own is skipped; an
owned key holding `null`/`undefined` emits `DELETE_ALL`; otherwise a
schema-valid value emits `PUT` of the converted value and an invalid one is
collected as an error key.  The `getFieldSchema = none` row is unreachable
(attribute keys come from the declared shape) and mirrors the invalid case. -/
def convertUpdatesLoop (s : DbSchema) (input : List (String × TVal)) (now : Int) :
    List String → List UpdateInstr × List String
  | [] => ([], [])
  | key :: rest =>
    let out := convertUpdatesLoop s input now rest
    if key == "updatedAt" && s.timestamps then
      (.put key (jsToTablestore (.vnum (now : Rat)) (some (.znumber true))) :: out.1,
        out.2)
    else
      match input.lookup key with
      | none => out
      | some v =>
        if v = .vundefined ∨ v = .vnull then (.deleteAll key :: out.1, out.2)
        else
          match s.getFieldSchema key with
          | some ty =>
            if zodAccepts ty v then
              (.put key (jsToTablestore v (some ty)) :: out.1, out.2)
            else (out.1, key :: out.2)
          | none => (out.1, key :: out.2)

/-- `DbSchema.convertToTablestoreUpdates` (schema.ts): the loop above over
the attribute keys; returns the instruction list and the error key names. -/
def DbSchema.convertToTablestoreUpdates (s : DbSchema)
    (input : List (String × TVal)) (now : Int) :
    List UpdateInstr × List String :=
  convertUpdatesLoop s input now s.attributeKeys

/-- The contribution of a single iterated key to the update loop's
instruction and error lists (proof helper: the branches mirror
`convertUpdatesLoop` exactly). -/
def updateEmit (s : DbSchema) (input : List (String × TVal)) (now : Int)
    (key : String) : List UpdateInstr × List String :=
  if key == "updatedAt" && s.timestamps then
    ([.put key (jsToTablestore (.vnum (now : Rat)) (some (.znumber true)))], [])
  else
    match input.lookup key with
    | none => ([], [])
    | some v =>
      if v = .vundefined ∨ v = .vnull then ([.deleteAll key], [])
      else
        match s.getFieldSchema key with
        | some ty =>
          if zodAccepts ty v then ([.put key (jsToTablestore v (some ty))], [])
          else ([], [key])
        | none => ([], [key])

/-- `record[name] = value` upsert into a flat output record, preserving the
first-insertion position of an overwritten field as a JavaScript object
does. -/
def recSet (l : List (String × TVal)) (k : String) (v : TVal) :
    List (String × TVal) :=
  if l.any (fun p => p.1 == k) then
    l.map (fun p => if p.1 == k then (k, v) else p)
  else l ++ [(k, v)]

/-- One pass of `DbSchema.convertToJs` over a name/value list: decode each
pair through `tablestoreToJs` and store it, skipping fields whose decoded
value is null/undefined. -/
def convertRowFields (s : DbSchema) (acc : List (String × TVal)) :
    List (String × TVal) → List (String × TVal)
  | [] => acc
  | (name, value) :: rest =>
    let parsed := tablestoreToJs value (s.getFieldSchema name)
    if parsed = .vnull ∨ parsed = .vundefined then convertRowFields s acc rest
    else convertRowFields s (recSet acc name parsed) rest

/-- A store row: decoded primary-key pairs and attribute-column pairs. -/
structure TableRow where
  primaryKey : List (String × TVal)
  attributes : List (String × TVal)
deriving DecidableEq, Repr

/-- `DbSchema.convertToJs` on a present row: primary-key fields first, then
attribute columns, merged into one flat record. -/
def DbSchema.convertToJsRow (s : DbSchema) (r : TableRow) :
    List (String × TVal) :=
  convertRowFields s (convertRowFields s [] r.primaryKey) r.attributes

/-! ## Range Query Builder -/

inductive Direction where
  | forward
  | backward
deriving DecidableEq, Repr

/-- The mutable state of a `RangeQueryBuilder` chain. -/
structure RangeState where
  startPrimaryKey : Option (List (String × TVal))
  endPrimaryKey : Option (List (String × TVal))
  direction : Direction
  limit : Int
  columnsToGet : Option (List String)
  columnFilter : Option ColumnCondition

/-- A freshly constructed builder: no boundaries, no projection, no filter,
forward direction, default limit 20. -/
def initRangeState : RangeState :=
  { startPrimaryKey := none, endPrimaryKey := none, direction := .forward,
    limit := 20, columnsToGet := none, columnFilter := none }

/-- `RangeQueryBuilder.startWith`: convert the partial key, then push the
negative-infinity sentinel for every missing key field. -/
def RangeState.startWith (st : RangeState) (s : DbSchema) (idx : Option String)
    (pk : List (String × TVal)) : RangeState :=
  let r := s.convertToTablestorePks idx pk
  { st with startPrimaryKey := some (r.1 ++ r.2.map (fun k => (k, TVal.infMin))) }

/-- `RangeQueryBuilder.endAt`: same with the positive-infinity sentinel. -/
def RangeState.endAt (st : RangeState) (s : DbSchema) (idx : Option String)
    (pk : List (String × TVal)) : RangeState :=
  let r := s.convertToTablestorePks idx pk
  { st with endPrimaryKey := some (r.1 ++ r.2.map (fun k => (k, TVal.infMax))) }

/-- `RangeQueryBuilder.limit` (named `setLimit` here because the state
field is already called `limit`): positive counts are taken, anything else
falls back to the default page size 20. -/
def RangeState.setLimit (st : RangeState) (count : Int) : RangeState :=
  if count > 0 then { st with limit := count } else { st with limit := 20 }

/-- `RangeQueryBuilder.select`: an empty field list projects every declared
field; a non-empty list projects the declared fields the request mentions
(`difinitionKeys.filter(key => fields.includes(key))`), silently dropping
undeclared names.  A total function: no input throws. -/
def RangeState.select (st : RangeState) (s : DbSchema) (fields : List String) :
    RangeState :=
  if fields.length = 0 then { st with columnsToGet := some s.difinitionKeys }
  else
    { st with
      columnsToGet := some (s.difinitionKeys.filter (fun k => fields.contains k)) }

/-- The `getRange` request record. -/
structure GetRangeRequest where
  tableName : String
  inclusiveStartPrimaryKey : List (String × TVal)
  exclusiveEndPrimaryKey : List (String × TVal)
  limit : Int
  direction : Direction
  columnFilter : Option ColumnCondition
  columnsToGet : Option (List String)

/-- The single `getRange` request `RangeQueryBuilder.exec` issues: an unset
start boundary is first defaulted via `startWith({})`, an unset end
boundary via `endAt({})`, and an unset projection to all declared fields;
the request then carries the (index or table) name and the accumulated
state.  `exec` performs exactly one store call with this request. -/
def RangeState.execRequest (st : RangeState) (s : DbSchema) (idx : Option String)
    (tableName : String) : GetRangeRequest :=
  let st1 := if st.startPrimaryKey.isNone then st.startWith s idx [] else st
  let st2 := if st1.endPrimaryKey.isNone then st1.endAt s idx [] else st1
  let st3 :=
    if st2.columnsToGet.isNone then
      { st2 with columnsToGet := some s.difinitionKeys }
    else st2
  { tableName := idx.getD tableName
    inclusiveStartPrimaryKey := st3.startPrimaryKey.getD []
    exclusiveEndPrimaryKey := st3.endPrimaryKey.getD []
    limit := st3.limit
    direction := st3.direction
    columnFilter := st3.columnFilter
    columnsToGet := st3.columnsToGet }

/-! ## Search Query Builder -/

/-- The repository's `OdmResult` pair `[error, data]`. -/
inductive OdmResult (A : Type) where
  | err (msg : String)
  | ok (value : A)

inductive ColumnReturnType where
  | returnAll
  | returnSpecified
deriving DecidableEq, Repr

/-- The mutable state of a `SearchQueryBuilder` chain; the stored query
fragment is opaque to the builder, so its type `Q` is a parameter. -/
structure SearchState (Q : Type) where
  query : Option Q
  limit : Option Int
  offset : Option Int
  token : Option (List Nat)
  getTotalCount : Bool
  select : Option (List String)

/-- A freshly constructed search builder: everything unset except the
total-count flag, which initializes to `true`. -/
def initSearchState (Q : Type) : SearchState Q :=
  { query := none, limit := none, offset := none, token := none,
    getTotalCount := true, select := none }

/-- The search request record. -/
structure SearchRequest (Q : Type) where
  tableName : String
  indexName : String
  query : Q
  token : Option (List Nat)
  limit : Int
  offset : Int
  getTotalCount : Bool
  returnNames : Option (List String)
  returnType : ColumnReturnType

/-- The raw store response to a search call. -/
structure RawSearchResponse where
  rows : List TableRow
  totalCounts : TVal
  nextToken : Option (List Nat)
  isAllSucceeded : Bool

/-- The builder's decoded result (the source drops the response's
`nextToken` from the fully-succeeded result object). -/
structure SearchResult where
  rows : List (List (String × TVal))
  totalCount : Rat

/-- `Number(totalCounts) || 0`: a falsy coercion (`NaN` or zero) yields 0. -/
def numberOrZero (v : TVal) : Rat :=
  match jsToNumber v with
  | some q => if q = 0 then 0 else q
  | none => 0

/-- The request `SearchQueryBuilder.exec` builds once a query is present:
`limit` falls back to the default 10 when unset (or set to the falsy 0),
`offset` to 0, the projection mode is `RETURN_SPECIFIED` only when a
non-empty selection was made, `RETURN_ALL` otherwise. -/
def SearchState.buildRequest {Q : Type} (st : SearchState Q) (q : Q)
    (tableName indexName : String) : SearchRequest Q :=
  { tableName := tableName
    indexName := indexName
    query := q
    token := st.token
    limit :=
      match st.limit with
      | none => 10
      | some l => if l = 0 then 10 else l
    offset :=
      match st.offset with
      | none => 0
      | some o => o
    getTotalCount := st.getTotalCount
    returnNames := st.select
    returnType :=
      match st.select with
      | some fs => if fs.length > 0 then .returnSpecified else .returnAll
      | none => .returnAll }

/-- What an `exec()` call does: either throw synchronously (before any store
request is built or issued) or issue exactly one request and return a
paired `OdmResult`. -/
inductive SearchExecOutcome (Q R : Type) where
  | thrown (msg : String)
  | executed (request : SearchRequest Q) (result : OdmResult R)

/-- `SearchQueryBuilder.exec` (search builder source): with no query
fragment configured it throws `缺少查询条件` synchronously; otherwise it
builds the single search request and interprets the store outcome
(`sdkOutcome` is the `executeSdkCall` result of that one `client.search`
call): a transport error is passed through as an error result; a
not-fully-succeeded response yields a SUCCESS result with no rows and zero
count; a fully-succeeded response yields the decoded rows and
`Number(totalCounts) || 0`. -/
def SearchState.exec {Q : Type} (st : SearchState Q) (s : DbSchema)
    (tableName indexName : String) (sdkOutcome : OdmResult RawSearchResponse) :
    SearchExecOutcome Q SearchResult :=
  match st.query with
  | none => .thrown "缺少查询条件"
  | some q =>
    let request := st.buildRequest q tableName indexName
    match sdkOutcome with
    | .err e => .executed request (.err e)
    | .ok response =>
      if response.isAllSucceeded then
        .executed request (.ok
          { rows := response.rows.map s.convertToJsRow
            totalCount := numberOrZero response.totalCounts })
      else
        .executed request (.ok { rows := [], totalCount := 0 })

/-! ## Concrete fixtures for witnesses -/

/-- A concrete schema: primary key `(category, productId)`, one extra
attribute, one GSI `byUser` keyed `(userId, category)`. -/
def witSchema : DbSchema :=
  { fields := [("category", .zstring), ("productId", .zstring),
               ("userId", .zstring)]
    primaryKeys := ["category", "productId"]
    GSIs := [{ indexName := "byUser", primaryKeys := ["userId", "category"] }]
    timestamps := true }

/-- The spec's end-to-end update example: primary key `userId`, integer
attribute `age`, plus a declared `updatedAt` timestamp attribute. -/
def updSchema : DbSchema :=
  { fields := [("userId", .zstring), ("age", .znumber true),
               ("updatedAt", .znumber true)]
    primaryKeys := ["userId"]
    GSIs := []
    timestamps := true }

/-! ## Theorems -/

/-- C1 failing input: a stored boolean `false` decodes to `true`.
`jsToTablestore(false, z.boolean())` stores the cell `false`, but
`tablestoreToJs` computes `Boolean(value.toLocaleString())`, and
`false.toLocaleString()` is the non-empty string `"false"`, so the decoded
value is `true` — the round-trip the claim states (and the repository's own
type-converter test asserts) fails at `false`.  Strings, and the boolean
`true`, do round-trip. -/
theorem C1_boolFalseDecodesTrue :
    jsToTablestore (.vbool false) (some .zboolean) = .vbool false ∧
    tablestoreToJs (jsToTablestore (.vbool false) (some .zboolean))
      (some .zboolean) = .vbool true := by
  constructor <;> rfl

/-- C5 failing input: a non-integer numeric field does not round-trip.
Encoding `0.0001` stores the double `0.0001`, but the decoder computes
`Number(value.toLocaleString())`; `(0.0001).toLocaleString()` is `"0"`
(ECMA-402 default formatting keeps at most three fraction digits), so the
round-trip returns `0 ≠ 0.0001`, against the claim's floating-point
equality. -/
theorem C5_nonIntRoundTripFails :
    tablestoreToJs (jsToTablestore (.vnum (1 / 10000)) (some (.znumber false)))
      (some (.znumber false)) = .vnum 0 ∧ (1 / 10000 : Rat) ≠ 0 := by
  have henc : jsToTablestore (.vnum (1 / 10000)) (some (.znumber false))
      = .vnum (1 / 10000) := by
    simp [jsToTablestore, jsToNumber]
  have hfloor : ⌊((1 : Rat) / 10000 * 1000 + 1 / 2)⌋ = 0 := by norm_num
  have hneg : ¬ ((1 : Rat) / 10000 < 0) := by norm_num
  have hfmt : jsNumToLocaleString (1 / 10000) = "0" := by
    simp only [jsNumToLocaleString, if_neg hneg, hfloor]
    rfl
  have hparse : jsParseNumber "0" = some 0 := by rfl
  have hdec : tablestoreToJs (.vnum (1 / 10000)) (some (.znumber false))
      = .vnum 0 := by
    simp only [tablestoreToJs, toLocaleString]
    simp only [hfmt, hparse]
    simp
  refine ⟨by rw [henc, hdec], by norm_num⟩

/-- C4 failing input: `range("price", 1, 10, { includeLower: false })`.
The claim requires the emitted fragment's lower bound to be exclusive
(`includeLower = false`), but the source reads `options.includeUpper`
(absent here, hence defaulted to `true`) for the lower bound, so the
fragment comes out lower-inclusive. -/
theorem C4_lowerBoundReadsUpperFlag :
    (QueryFactory.range "price" (.vlong 1) (.vlong 10)
      { includeLower := some false, includeUpper := none }).includeLower
      = true := rfl

/-- C8: `and()`/`or()` with zero conditions raise a construction error; with
one or more conditions they succeed and produce a composite holding exactly
those children; `not` applied to one condition produces a composite with
exactly that one child (and, by its one-argument signature, cannot be
applied to two). -/
theorem C8_combinatorArity (cs : List ColumnCondition) (c : ColumnCondition)
    (hne : cs ≠ []) :
    (∃ e, FilterFactory.and [] = .error e) ∧
    (∃ e, FilterFactory.or [] = .error e) ∧
    FilterFactory.and cs = .ok (.composite .logAnd cs) ∧
    FilterFactory.or cs = .ok (.composite .logOr cs) ∧
    FilterFactory.not c = .composite .logNot [c] := by
  have hlen : cs.length ≠ 0 := fun h => hne (List.length_eq_zero.mp h)
  refine ⟨⟨_, rfl⟩, ⟨_, rfl⟩, ?_, ?_, rfl⟩ <;>
    simp [FilterFactory.and, FilterFactory.or, hlen]

/-- Witness for C8 at a concrete leaf condition. -/
theorem C8_combinatorArity_witness :
    ([ColumnCondition.single "age" (.vlong 5) .equal true true] :
      List ColumnCondition) ≠ [] ∧
    FilterFactory.and [ColumnCondition.single "age" (.vlong 5) .equal true true]
      = .ok (.composite .logAnd
          [ColumnCondition.single "age" (.vlong 5) .equal true true]) := by
  have h := C8_combinatorArity
    [ColumnCondition.single "age" (.vlong 5) .equal true true]
    (ColumnCondition.single "age" (.vlong 5) .equal true true)
    (by simp)
  exact ⟨by simp, h.2.2.1⟩

/-- Membership in the accumulated `seen` set. -/
theorem mem_seenAfter (y : String) :
    ∀ (l seen : List String), y ∈ seenAfter l seen ↔ y ∈ l ∨ y ∈ seen := by
  intro l
  induction l with
  | nil => intro seen; simp [seenAfter]
  | cons x xs ih =>
    intro seen
    by_cases h : seen.contains x = true
    · rw [seenAfter, if_pos h, ih]
      have hx : x ∈ seen := by simpa using h
      simp only [List.mem_cons]
      constructor
      · rintro (h1 | h2)
        · exact .inl (.inr h1)
        · exact .inr h2
      · rintro ((rfl | h1) | h2)
        · exact .inr hx
        · exact .inl h1
        · exact .inr h2
    · rw [seenAfter, if_neg h, ih]
      simp only [List.mem_cons]
      tauto

/-- Splitting `jsSetDedupAux` over an append. -/
theorem jsSetDedupAux_append :
    ∀ (l₁ l₂ seen : List String),
      jsSetDedupAux (l₁ ++ l₂) seen
        = jsSetDedupAux l₁ seen ++ jsSetDedupAux l₂ (seenAfter l₁ seen) := by
  intro l₁
  induction l₁ with
  | nil => intro l₂ seen; simp [jsSetDedupAux, seenAfter]
  | cons x xs ih =>
    intro l₂ seen
    by_cases h : seen.contains x = true
    · rw [List.cons_append, jsSetDedupAux, if_pos h, seenAfter, if_pos h,
        jsSetDedupAux, if_pos h, ih]
    · rw [List.cons_append, jsSetDedupAux, if_neg h, seenAfter, if_neg h,
        jsSetDedupAux, if_neg h, ih, List.cons_append]

/-- On a duplicate-free list, `jsSetDedupAux` just filters out what has
already been seen. -/
theorem jsSetDedupAux_eq_filter :
    ∀ (l seen : List String), l.Nodup →
      jsSetDedupAux l seen = l.filter (fun x => !(seen.contains x)) := by
  intro l
  induction l with
  | nil => intro seen _; simp [jsSetDedupAux]
  | cons x xs ih =>
    intro seen hnd
    rw [List.nodup_cons] at hnd
    by_cases h : seen.contains x = true
    · rw [jsSetDedupAux, if_pos h, ih _ hnd.2, List.filter_cons]
      have hx : x ∈ seen := by simpa using h
      simp [hx]
    · rw [jsSetDedupAux, if_neg h, ih _ hnd.2, List.filter_cons]
      have hx : x ∉ seen := by simpa using h
      have hkeep : (!(seen.contains x)) = true := by simp [hx]
      rw [if_pos hkeep]
      congr 1
      apply List.filter_congr
      intro a ha
      have hax : a ≠ x := fun e => hnd.1 (e ▸ ha)
      simp [List.contains_cons, hax]

/-- `[...new Set([...g, ...b])]` on duplicate-free inputs: `g` first, then
the members of `b` not already in `g`. -/
theorem jsSetDedup_append_eq (g b : List String) (hg : g.Nodup) (hb : b.Nodup) :
    jsSetDedup (g ++ b) = g ++ b.filter (fun k => !(g.contains k)) := by
  rw [jsSetDedup, jsSetDedupAux_append, jsSetDedupAux_eq_filter _ _ hg,
    jsSetDedupAux_eq_filter _ _ hb]
  congr 1
  · simp
  · apply List.filter_congr
    intro a _
    simp [mem_seenAfter]

/-- C6: a key-conversion call naming a defined secondary index iterates the
index's own key fields first, then the remaining base primary-key fields,
each exactly once; a call with no index name iterates exactly the base
primary-key order.  (`convertToTablestorePks` iterates `applicableKeys` by
definition.) -/
theorem C6_gsiKeyOrder (s : DbSchema) (g : GsiDefinition) (nm : String)
    (hfind : s.GSIs.find? (fun g' => g'.indexName == nm) = some g)
    (hg : g.primaryKeys.Nodup) (hb : s.primaryKeys.Nodup) :
    s.applicableKeys (some nm)
      = g.primaryKeys
        ++ s.primaryKeys.filter (fun k => !(g.primaryKeys.contains k))
    ∧ (s.applicableKeys (some nm)).Nodup
    ∧ s.applicableKeys none = s.primaryKeys := by
  have hpks : s.getGsiPks nm = g.primaryKeys := by
    rw [DbSchema.getGsiPks, hfind]
  have heq : s.applicableKeys (some nm)
      = g.primaryKeys
        ++ s.primaryKeys.filter (fun k => !(g.primaryKeys.contains k)) := by
    rw [DbSchema.applicableKeys, hpks, jsSetDedup_append_eq _ _ hg hb]
  refine ⟨heq, ?_, rfl⟩
  rw [heq]
  refine List.Nodup.append hg (hb.filter _) ?_
  intro a hag haf
  have hkeep := List.of_mem_filter haf
  simp at hkeep
  exact hkeep hag

/-- Witness for C6 on `witSchema`'s GSI `byUser` over primary key
`(category, productId)`: the iterated order is
`userId, category, productId`. -/
theorem C6_gsiKeyOrder_witness :
    witSchema.applicableKeys (some "byUser")
      = ["userId", "category", "productId"] := by
  have h := C6_gsiKeyOrder witSchema
    { indexName := "byUser", primaryKeys := ["userId", "category"] }
    "byUser" (by rfl) (by decide) (by decide)
  rw [h.1]
  rfl

/-- Converting the empty partial key reports every iterated key as
missing: `input[key]` is `undefined` and `jsToTablestore` maps
`undefined` to `undefined` under any (or no) field schema. -/
theorem convertPksLoop_empty (s : DbSchema) :
    ∀ keys : List String, convertPksLoop s [] keys = ([], keys) := by
  intro keys
  induction keys with
  | nil => rfl
  | cons k rest ih =>
    have hundef : jsToTablestore (recGet [] k) (s.getFieldSchema k)
        = .vundefined := by
      cases h : s.getFieldSchema k <;> simp [recGet, jsToTablestore, h]
    rw [convertPksLoop]
    simp [hundef, ih]

/-- C3: executing a Range Query Builder on which neither `startWith` nor
`endAt` was called issues its one interval-scan request with the start key
assigning `INF_MIN` to every applicable primary-key field (in iteration
order) and the end key assigning `INF_MAX` to every such field. -/
theorem C3_openIntervalDefaults (s : DbSchema) (idx : Option String)
    (tn : String) :
    (initRangeState.execRequest s idx tn).inclusiveStartPrimaryKey
      = (s.applicableKeys idx).map (fun k => (k, TVal.infMin))
    ∧ (initRangeState.execRequest s idx tn).exclusiveEndPrimaryKey
      = (s.applicableKeys idx).map (fun k => (k, TVal.infMax)) := by
  constructor <;>
    simp [RangeState.execRequest, initRangeState, RangeState.startWith,
      RangeState.endAt, DbSchema.convertToTablestorePks,
      convertPksLoop_empty]

/-- C9: `select([])` projects exactly the full declared-field set;
`select(fields)` with a non-empty list projects the declared fields among
the requested ones, silently dropping undeclared names (the function is
total — no input throws); in particular an all-undeclared request projects
nothing. -/
theorem C9_selectProjection (s : DbSchema) (st : RangeState)
    (fields : List String) (hne : fields ≠ []) :
    (st.select s []).columnsToGet = some s.difinitionKeys
    ∧ (st.select s fields).columnsToGet
        = some (s.difinitionKeys.filter (fun k => fields.contains k))
    ∧ ((∀ k ∈ s.difinitionKeys, ¬ (fields.contains k = true)) →
        (st.select s fields).columnsToGet = some []) := by
  have hlen : fields.length ≠ 0 := fun h => hne (List.length_eq_zero.mp h)
  refine ⟨by simp [RangeState.select], by simp [RangeState.select, hlen], ?_⟩
  intro hnone
  simp [RangeState.select, hlen]
  intro a ha
  simpa using hnone a ha

/-- Witness for C9 on `witSchema` with the undeclared request `["x"]`:
`select([])` yields all three declared fields, `select(["x"])` yields the
empty projection. -/
theorem C9_selectProjection_witness :
    (initRangeState.select witSchema []).columnsToGet
      = some ["category", "productId", "userId"]
    ∧ (initRangeState.select witSchema ["x"]).columnsToGet = some [] := by
  have h := C9_selectProjection witSchema initRangeState ["x"] (by simp)
  refine ⟨?_, h.2.2 (by decide)⟩
  rw [h.1]
  rfl

/-- Each step of the update loop contributes exactly its `updateEmit`. -/
theorem convertUpdatesLoop_cons (s : DbSchema) (input : List (String × TVal))
    (now : Int) (k : String) (rest : List String) :
    convertUpdatesLoop s input now (k :: rest)
      = ((updateEmit s input now k).1 ++ (convertUpdatesLoop s input now rest).1,
         (updateEmit s input now k).2 ++ (convertUpdatesLoop s input now rest).2) := by
  rw [convertUpdatesLoop, updateEmit]
  by_cases h1 : (k == "updatedAt" && s.timestamps) = true
  · simp [h1]
  · rw [if_neg h1, if_neg h1]
    cases hlk : input.lookup k with
    | none => simp
    | some v =>
      by_cases h2 : (v = .vundefined ∨ v = .vnull)
      · simp [h2]
      · cases hty : s.getFieldSchema k with
        | none => simp [h2]
        | some ty =>
          by_cases h3 : zodAccepts ty v = true
          · simp [h2, h3]
          · simp [h2, h3]

/-- Every instruction `updateEmit` produces names the emitting key. -/
theorem updateEmit_column (s : DbSchema) (input : List (String × TVal))
    (now : Int) (k : String) :
    ∀ i ∈ (updateEmit s input now k).1, i.column = k := by
  intro i hi
  rw [updateEmit] at hi
  by_cases h1 : (k == "updatedAt" && s.timestamps) = true
  · rw [if_pos h1] at hi
    simp at hi
    simp [hi, UpdateInstr.column]
  · rw [if_neg h1] at hi
    cases hlk : input.lookup k with
    | none => rw [hlk] at hi; simp at hi
    | some v =>
      rw [hlk] at hi
      by_cases h2 : (v = .vundefined ∨ v = .vnull)
      · simp [h2] at hi
        simp [hi, UpdateInstr.column]
      · cases hty : s.getFieldSchema k with
        | none => simp [h2, hty] at hi
        | some ty =>
          by_cases h3 : zodAccepts ty v = true
          · simp [h2, hty, h3] at hi
            simp [hi, UpdateInstr.column]
          · simp [h2, hty, h3] at hi

/-- A key the caller did not mention, other than a timestamps-managed
`updatedAt`, emits nothing. -/
theorem updateEmit_skip (s : DbSchema) (input : List (String × TVal))
    (now : Int) (key : String) (hlk : input.lookup key = none)
    (hts : ¬ (key = "updatedAt" ∧ s.timestamps = true)) :
    updateEmit s input now key = ([], []) := by
  have h1 : (key == "updatedAt" && s.timestamps) = false := by
    by_contra hb
    simp only [Bool.not_eq_false, Bool.and_eq_true, beq_iff_eq] at hb
    exact hts hb
  rw [updateEmit, h1]
  simp [hlk]

/-- An explicit `null`/`undefined` value, other than on a
timestamps-managed `updatedAt`, emits exactly the delete-all instruction. -/
theorem updateEmit_delete (s : DbSchema) (input : List (String × TVal))
    (now : Int) (key : String) (v : TVal) (hlk : input.lookup key = some v)
    (hv : v = .vnull ∨ v = .vundefined)
    (hts : ¬ (key = "updatedAt" ∧ s.timestamps = true)) :
    updateEmit s input now key = ([.deleteAll key], []) := by
  have h1 : (key == "updatedAt" && s.timestamps) = false := by
    by_contra hb
    simp only [Bool.not_eq_false, Bool.and_eq_true, beq_iff_eq] at hb
    exact hts hb
  rw [updateEmit, h1]
  rcases hv with rfl | rfl <;> simp [hlk]

/-- A present, schema-valid value, other than on a timestamps-managed
`updatedAt`, emits exactly the put instruction with the converted value. -/
theorem updateEmit_put (s : DbSchema) (input : List (String × TVal))
    (now : Int) (key : String) (v : TVal) (ty : ZodTy)
    (hlk : input.lookup key = some v) (hv1 : v ≠ .vnull) (hv2 : v ≠ .vundefined)
    (hty : s.getFieldSchema key = some ty) (hacc : zodAccepts ty v = true)
    (hts : ¬ (key = "updatedAt" ∧ s.timestamps = true)) :
    updateEmit s input now key
      = ([.put key (jsToTablestore v (some ty))], []) := by
  have h1 : (key == "updatedAt" && s.timestamps) = false := by
    by_contra hb
    simp only [Bool.not_eq_false, Bool.and_eq_true, beq_iff_eq] at hb
    exact hts hb
  have h2 : ¬ (v = .vundefined ∨ v = .vnull) := by
    rintro (h | h)
    · exact hv2 h
    · exact hv1 h
  rw [updateEmit, h1]
  simp [hlk, h2, hty, hacc]

/-- C7 (amended): for every attribute field other than a timestamps-managed
`updatedAt`: an unmentioned field gets no instruction; an explicit
`null`/`undefined` gets a delete-all instruction; a present, schema-valid
value gets a put instruction carrying its converted value. -/
theorem C7_updatePatchPerField (s : DbSchema) (input : List (String × TVal))
    (now : Int) (key : String) (hkey : key ∈ s.attributeKeys)
    (hts : ¬ (key = "updatedAt" ∧ s.timestamps = true)) :
    (input.lookup key = none →
      ∀ i ∈ (s.convertToTablestoreUpdates input now).1, i.column ≠ key)
    ∧ (∀ v, input.lookup key = some v → (v = .vnull ∨ v = .vundefined) →
        UpdateInstr.deleteAll key ∈ (s.convertToTablestoreUpdates input now).1)
    ∧ (∀ v ty, input.lookup key = some v → v ≠ .vnull → v ≠ .vundefined →
        s.getFieldSchema key = some ty → zodAccepts ty v = true →
        UpdateInstr.put key (jsToTablestore v (some ty))
          ∈ (s.convertToTablestoreUpdates input now).1) := by
  refine ⟨?_, ?_, ?_⟩
  · intro hlk
    rw [DbSchema.convertToTablestoreUpdates]
    generalize s.attributeKeys = keys
    induction keys with
    | nil => intro i hi; simp [convertUpdatesLoop] at hi
    | cons k rest ih =>
      intro i hi
      rw [convertUpdatesLoop_cons] at hi
      rcases List.mem_append.mp hi with h | h
      · by_cases hk : k = key
        · subst hk
          rw [updateEmit_skip s input now k hlk hts] at h
          simp at h
        · have hcol := updateEmit_column s input now k i h
          rw [hcol]
          exact hk
      · exact ih i h
  · intro v hlk hv
    rw [DbSchema.convertToTablestoreUpdates]
    revert hkey
    generalize s.attributeKeys = keys
    intro hkey
    induction keys with
    | nil => simp at hkey
    | cons k rest ih =>
      rw [convertUpdatesLoop_cons]
      rcases List.mem_cons.mp hkey with rfl | hmem
      · rw [updateEmit_delete s input now key v hlk hv hts]
        exact List.mem_append.mpr (.inl (by simp))
      · exact List.mem_append.mpr (.inr (ih hmem))
  · intro v ty hlk hv1 hv2 hty hacc
    rw [DbSchema.convertToTablestoreUpdates]
    revert hkey
    generalize s.attributeKeys = keys
    intro hkey
    induction keys with
    | nil => simp at hkey
    | cons k rest ih =>
      rw [convertUpdatesLoop_cons]
      rcases List.mem_cons.mp hkey with rfl | hmem
      · rw [updateEmit_put s input now key v ty hlk hv1 hv2 hty hacc hts]
        exact List.mem_append.mpr (.inl (by simp))
      · exact List.mem_append.mpr (.inr (ih hmem))

/-- Counterexample to C7 as stated: on the spec's own example schema
(attributes `age` and `updatedAt`, timestamps on), the empty partial update
— which mentions no field at all — still emits a set instruction, namely a
fresh timestamp put for `updatedAt`; the claim requires the patch to carry
no instruction for any unmentioned field. -/
theorem C7_counterexample :
    (updSchema.convertToTablestoreUpdates [] 1700000000000).1
      = [UpdateInstr.put "updatedAt" (.vlong 1700000000000)] := by
  have htr : ratTrunc (1700000000000 : Rat) = 1700000000000 := by
    rw [ratTrunc, if_neg (by norm_num)]
    norm_num
  have hw : wrap64 1700000000000 = 1700000000000 := by norm_num [wrap64]
  have hval : jsToTablestore (.vnum ((1700000000000 : Int) : Rat))
      (some (.znumber true)) = .vlong 1700000000000 := by
    simp [jsToTablestore, jsToNumber, longFromNumber, htr, hw]
  have hak : updSchema.attributeKeys = ["age", "updatedAt"] := by rfl
  rw [DbSchema.convertToTablestoreUpdates, hak]
  rw [convertUpdatesLoop_cons, convertUpdatesLoop_cons]
  rw [updateEmit_skip updSchema [] 1700000000000 "age" rfl (by simp)]
  have hemit : updateEmit updSchema [] 1700000000000 "updatedAt"
      = ([UpdateInstr.put "updatedAt" (.vlong 1700000000000)], []) := by
    rw [updateEmit]
    have hcond : (("updatedAt" == "updatedAt") && updSchema.timestamps)
        = true := by rfl
    rw [if_pos hcond, hval]
  rw [hemit]
  rfl

/-- Witness for C7's put branch at the spec's example `{ age: 5 }` on
`updSchema`: the patch contains a set instruction encoding `5` as a 64-bit
integer. -/
theorem C7_updatePatchPerField_witness :
    UpdateInstr.put "age" (.vlong 5)
      ∈ (updSchema.convertToTablestoreUpdates [("age", .vnum 5)]
          1700000000000).1 := by
  have h := C7_updatePatchPerField updSchema [("age", .vnum 5)] 1700000000000
    "age" (by decide) (by simp)
  have htr : ratTrunc (5 : Rat) = 5 := by
    rw [ratTrunc, if_neg (by norm_num)]
    norm_num
  have hw : wrap64 5 = 5 := by norm_num [wrap64]
  have h5 : jsToTablestore (.vnum 5) (some (.znumber true)) = .vlong 5 := by
    simp [jsToTablestore, jsToNumber, longFromNumber, htr, hw]
  have hput := h.2.2 (.vnum 5) (.znumber true) rfl (by simp) (by simp) rfl
    (by simp [zodAccepts, Rat.den_ofNat])
  rw [h5] at hput
  exact hput

/-- C2: whenever the store response's `isAllSucceeded` flag is false, the
search builder's `exec` returns a SUCCESS result whose row list is empty
and whose total count is 0, regardless of the rows, count or token the raw
response carried. -/
theorem C2_partialResponseEmptyResult {Q : Type} (st : SearchState Q) (q : Q)
    (s : DbSchema) (tn idx : String) (response : RawSearchResponse)
    (hq : st.query = some q) (hfail : response.isAllSucceeded = false) :
    st.exec s tn idx (.ok response)
      = .executed (st.buildRequest q tn idx)
          (.ok { rows := [], totalCount := 0 }) := by
  simp [SearchState.exec, hq, hfail]

/-- Witness for C2: a not-fully-succeeded response carrying one row and a
count of 7 still yields the empty zero-count success result. -/
theorem C2_partialResponseEmptyResult_witness :
    (({ initSearchState Unit with query := some () } : SearchState Unit).exec
        witSchema "products" "productsIndex"
        (.ok { rows := [{ primaryKey := [("category", .vstr "a")],
                          attributes := [] }],
               totalCounts := .vlong 7, nextToken := none,
               isAllSucceeded := false }))
      = .executed
          (({ initSearchState Unit with query := some () } :
              SearchState Unit).buildRequest () "products" "productsIndex")
          (.ok { rows := [], totalCount := 0 }) :=
  C2_partialResponseEmptyResult _ () witSchema "products" "productsIndex" _
    rfl rfl

/-- C10: `exec()` on a search builder whose `filter()` was never invoked
(no query fragment) throws synchronously — the outcome is `thrown`, not an
issued request with a paired error/result — while a builder whose only
configured setting is the query falls back to the defaults for everything
else: limit 10, offset 0, total-count true, no token, return-all
projection. -/
theorem C10_missingQueryThrows {Q : Type} (st : SearchState Q) (s : DbSchema)
    (tn idx : String) (sdkOutcome : OdmResult RawSearchResponse)
    (hq : st.query = none) :
    st.exec s tn idx sdkOutcome = .thrown "缺少查询条件"
    ∧ ∀ q : Q, ∃ res,
        ({ initSearchState Q with query := some q } : SearchState Q).exec
            s tn idx sdkOutcome
          = .executed
              { tableName := tn, indexName := idx, query := q, token := none,
                limit := 10, offset := 0, getTotalCount := true,
                returnNames := none, returnType := .returnAll } res := by
  constructor
  · simp [SearchState.exec, hq]
  · intro q
    cases sdkOutcome with
    | err e =>
      refine ⟨.err e, by simp [SearchState.exec, initSearchState]; rfl⟩
    | ok response =>
      by_cases h : response.isAllSucceeded = true
      · refine ⟨.ok { rows := response.rows.map s.convertToJsRow,
                      totalCount := numberOrZero response.totalCounts },
          by simp [SearchState.exec, initSearchState, h]; rfl⟩
      · refine ⟨.ok { rows := [], totalCount := 0 },
          by simp [SearchState.exec, initSearchState, h]; rfl⟩

/-- Witness for C10 on a fresh builder: `exec` throws the missing-query
error. -/
theorem C10_missingQueryThrows_witness :
    (initSearchState Unit).exec witSchema "products" "productsIndex"
        (.err "boom")
      = .thrown "缺少查询条件" :=
  (C10_missingQueryThrows (initSearchState Unit) witSchema "products"
    "productsIndex" (.err "boom") rfl).1

end TsOdm
